import Mathlib

/-!
Verification of the interpolation-based reprojection core
(`reproject/interpolation/core.py` and `reproject/array_utils.py`).

Floating-point sample values are embedded as exact rationals extended with
the three non-finite IEEE values that the code distinguishes
(`isfinite` / `isnan`): `FP.fin q`, `FP.inf`, `FP.ninf`, `FP.nan`.
N-dimensional numpy arrays are embedded as a shape (list of extents)
together with a total valuation on multi-indices; numpy views
(`swapaxes`, C-order `reshape`) are embedded as index re-mappings, i.e.
the views-alias-the-buffer semantics that the code relies on.
-/

/-- Embedded floating-point value: a finite rational, `+inf`, `-inf` or NaN. -/
inductive FP where
  | fin : ℚ → FP
  | inf : FP
  | ninf : FP
  | nan : FP
deriving DecidableEq, Repr

/-- `np.isnan` on a single value. -/
def FP.isnan : FP → Bool
  | .nan => true
  | _ => false

/-- `np.isfinite` on a single value. -/
def FP.isfinite : FP → Bool
  | .fin _ => true
  | _ => false

/-- IEEE-style addition on embedded values. -/
def FP.add : FP → FP → FP
  | .nan, _ => .nan
  | _, .nan => .nan
  | .inf, .ninf => .nan
  | .ninf, .inf => .nan
  | .inf, _ => .inf
  | _, .inf => .inf
  | .ninf, _ => .ninf
  | _, .ninf => .ninf
  | .fin a, .fin b => .fin (a + b)

/-- IEEE-style scaling of an embedded value by an exact rational weight. -/
def FP.scale (w : ℚ) : FP → FP
  | .fin q => .fin (w * q)
  | .nan => .nan
  | .inf => if 0 < w then .inf else if w = 0 then .nan else .ninf
  | .ninf => if 0 < w then .ninf else if w = 0 then .nan else .inf

/-- An N-dimensional numpy array: a shape and a total valuation on
multi-indices (only indices elementwise below the shape are meaningful). -/
structure NDArr where
  shape : List Nat
  val : List Nat → FP

/-- `np.zeros(shape)`. -/
def zerosND (shape : List Nat) : NDArr := ⟨shape, fun _ => FP.fin 0⟩

/-- Value of a 2-D array at row `i`, column `j`. -/
def NDArr.val2 (a : NDArr) (i j : Nat) : FP := a.val [i, j]

/-- `array[~np.isfinite(array)] = 0` as a whole-array operation. -/
def zeroNonfinite (a : NDArr) : NDArr :=
  ⟨a.shape, fun idx => if (a.val idx).isfinite then a.val idx else FP.fin 0⟩

/-- `(~np.isnan(a)).astype(float)`: the footprint derived from an output array. -/
def footprintOf (a : NDArr) : NDArr :=
  ⟨a.shape, fun idx => if (a.val idx).isnan then FP.fin 0 else FP.fin 1⟩

/-- Exchange the entries at positions `p` and `q` of a list
(`numpy.swapaxes` acting on a shape or on a multi-index). -/
def swapTwo (l : List Nat) (p q : Nat) : List Nat :=
  (l.set p (l.getD q 0)).set q (l.getD p 0)

/-- `numpy.ndarray.swapaxes p q` as a view: the shape is swapped and an
index into the view is swapped back to index the base buffer. -/
def NDArr.swapaxes (a : NDArr) (p q : Nat) : NDArr :=
  ⟨swapTwo a.shape p q, fun idx => a.val (swapTwo idx p q)⟩

/-- C-order (row-major) linearization of a multi-index with respect to a shape. -/
def linIdx : List Nat → List Nat → Nat
  | _ :: ds, i :: is => i * ds.prod + linIdx ds is
  | _, _ => 0

/-- C-order delinearization of a flat position into a multi-index. -/
def delin : List Nat → Nat → List Nat
  | [], _ => []
  | d :: ds, p => (p / ds.prod) % d :: delin ds (p % ds.prod)

/-- The coordinate-system capability consumed by the core (the spec's
`CoordinateSystem`, an external collaborator).  Modelled from the spec:
it exposes the axis count, per-axis type tags, the WCS-order indices of
the longitude/latitude axes, a named world reference frame, the celestial
pixel↔world mappings, the full 3-axis pixel→world mapping and the
spectral world→pixel mapping. -/
structure WCS where
  naxis : Nat
  axis_types : List Int
  lng : Nat
  lat : Nat
  frame : Nat
  cel_pix2world : ℚ → ℚ → ℚ × ℚ
  cel_world2pix : ℚ → ℚ → ℚ × ℚ
  pix2world3 : ℚ → ℚ → ℚ → ℚ × ℚ × ℚ
  spec_world2pix : ℚ → ℚ

/-- Modelled from the spec: `wcs.celestial`, the sub-system of the two
celestial axes; its axis pair is in canonical order (index 0 longitude,
index 1 latitude) and it keeps the celestial mappings and the frame. -/
def WCS.celestial (w : WCS) : WCS :=
  { w with naxis := 2, lng := 0, lat := 1 }

/-- An elementwise conversion between two named world reference frames. -/
abbrev FrameMap := Nat → Nat → ℚ × ℚ → ℚ × ℚ

/-- Modelled from the spec: `convert_world_coordinates` (the repository's
`wcs_utils` module, not part of the sources here): the external
`FrameConverter` maps a (lon, lat) pair elementwise from the native frame
of one coordinate system to the native frame of another; the conversion
map itself is the abstract parameter `fm`. -/
def convert_world_coordinates (fm : FrameMap) (xw yw : ℚ) (w_from w_to : WCS) : ℚ × ℚ :=
  fm w_from.frame w_to.frame (xw, yw)

/-- `np.pad(array, 1, mode='edge')` on a 2-D array: every index is clamped
into the original extent after shifting by the pad width. -/
def pad_edge_np (a : NDArr) : NDArr :=
  ⟨[a.shape.getD 0 0 + 2, a.shape.getD 1 0 + 2], fun idx =>
    a.val [min (idx.getD 0 0 - 1) (a.shape.getD 0 0 - 1),
           min (idx.getD 1 0 - 1) (a.shape.getD 1 0 - 1)]⟩

/-- The manual fallback branch of `pad_edge_1` (the `except` arm kept for
old numpy): allocate zeros, copy the interior, replicate the top and
bottom rows, then replicate the leftmost and rightmost columns. -/
def pad_edge_1_fallback (a : NDArr) : NDArr :=
  let ny := a.shape.getD 0 0
  let nx := a.shape.getD 1 0
  let s0 : Nat → Nat → FP := fun _ _ => FP.fin 0
  let s1 : Nat → Nat → FP := fun i j =>
    if 1 ≤ i ∧ i ≤ ny ∧ 1 ≤ j ∧ j ≤ nx then a.val [i - 1, j - 1] else s0 i j
  let s2 : Nat → Nat → FP := fun i j =>
    if i = 0 ∧ 1 ≤ j ∧ j ≤ nx then s1 1 j else s1 i j
  let s3 : Nat → Nat → FP := fun i j =>
    if i = ny + 1 ∧ 1 ≤ j ∧ j ≤ nx then s2 ny j else s2 i j
  let s4 : Nat → Nat → FP := fun i j => if j = 0 then s3 i 1 else s3 i j
  let s5 : Nat → Nat → FP := fun i j => if j = nx + 1 then s4 i nx else s4 i j
  ⟨[ny + 2, nx + 2], fun idx => s5 (idx.getD 0 0) (idx.getD 1 0)⟩

/-- `pad_edge_1`: the `try` branch (`np.pad(..., mode='edge')`) succeeds on
any current numpy, so the function is the numpy edge pad. -/
def pad_edge_1 (a : NDArr) : NDArr := pad_edge_np a

/-- Order-1 multilinear interpolation at a fractional multi-coordinate,
peeling one axis at a time; a corner whose weight is zero (an exactly
integral coordinate) contributes nothing and is not sampled. -/
def nlerp (f : List Nat → FP) : List ℚ → FP
  | [] => f []
  | c :: cs =>
      let c0 : Nat := (Int.floor c).toNat
      let t : ℚ := c - Int.floor c
      if t = 0 then nlerp (fun is => f (c0 :: is)) cs
      else ((nlerp (fun is => f (c0 :: is)) cs).scale (1 - t)).add
           ((nlerp (fun is => f ((c0 + 1) :: is)) cs).scale t)

/-- Modelled from the spec: the external `GridInterpolator`
(`scipy.ndimage.map_coordinates`) at the order used by the engine
(order 1) with `mode='constant'`: a coordinate outside the sample grid
`[0, size-1]` on any axis yields the fill value `cval`; otherwise the
grid is sampled multilinearly. -/
def scipy_map_coordinates (image : NDArr) (cval : FP) (coord : List ℚ) : FP :=
  if coord.length = image.shape.length ∧
      (coord.zip image.shape).all
        (fun p => decide (0 ≤ p.1) && decide (p.1 ≤ (p.2 : ℚ) - 1)) then
    nlerp image.val coord
  else cval

/-- The repository's `map_coordinates` wrapper: for a 2-D image, pad by one
pixel with edge replication, shift the coordinates by `+1`, delegate to the
external interpolator, then reset values sampled at original coordinates
below `-0.5` or above `size - 0.5` on either axis back to `cval`; for any
other rank, delegate directly. -/
def map_coordinates (image : NDArr) (cval : FP) (coord : List ℚ) : FP :=
  if image.shape.length = 2 then
    let ny := image.shape.getD 0 0
    let nx := image.shape.getD 1 0
    let v := scipy_map_coordinates (pad_edge_1 image) cval (coord.map (· + 1))
    let y := coord.getD 0 0
    let x := coord.getD 1 0
    if y < -(1/2 : ℚ) ∨ (ny : ℚ) - 1/2 < y ∨ x < -(1/2 : ℚ) ∨ (nx : ℚ) - 1/2 < x
    then cval else v
  else
    scipy_map_coordinates image cval coord

/-- The composite pixel mapping from output pixel coordinates to input
pixel coordinates through the two celestial systems and the frame
conversion (the 2-D celestial leg of `get_input_pixels`). -/
def compositePix (fm : FrameMap) (wcs_in wcs_out : WCS) (x y : ℚ) : ℚ × ℚ :=
  let w2 := wcs_out.cel_pix2world x y
  let cw := convert_world_coordinates fm w2.1 w2.2 wcs_out.celestial wcs_in.celestial
  wcs_in.celestial.cel_world2pix cw.1 cw.2

/-- `get_input_pixels`: for every output pixel of `shape_out`, the
corresponding fractional pixel coordinate in the input system, computed as
output pixel → output world → frame conversion → input pixel, with the
spectral axis converted independently in the 3-D case; a shape of rank
above 3 is rejected with the `">3 dimensional cube"` error. -/
def get_input_pixels (fm : FrameMap) (wcs_in wcs_out : WCS) (shape_out : List Nat) :
    Except String (List Nat → List ℚ) :=
  if 3 < shape_out.length then .error ">3 dimensional cube"
  else .ok fun idx =>
    let n := shape_out.length
    let x : ℚ := (idx.getD (n - 1) 0 : Nat)
    let y : ℚ := (idx.getD (n - 2) 0 : Nat)
    if n = 3 then
      let z : ℚ := (idx.getD 0 0 : Nat)
      let w3 := wcs_out.pix2world3 x y z
      let cw := convert_world_coordinates fm w3.1 w3.2.1 wcs_out.celestial wcs_in.celestial
      let p := wcs_in.celestial.cel_world2pix cw.1 cw.2
      [p.1, p.2, wcs_in.spec_world2pix w3.2.2]
    else
      let p := compositePix fm wcs_in wcs_out x y
      [p.1, p.2]

/-- The celestial-axes-last view built by `iterate_over_celestial_slices`:
one `swapaxes(-1, -2)` in the special case `lng = 1 ∧ lat = 0`, otherwise
`swapaxes(-2, -1 - lat)` followed by `swapaxes(-1, -1 - lng)`. -/
def celestialView (a : NDArr) (w : WCS) : NDArr :=
  let n := a.shape.length
  if w.lng = 1 ∧ w.lat = 0 then a.swapaxes (n - 1) (n - 2)
  else (a.swapaxes (n - 2) (n - 1 - w.lat)).swapaxes (n - 1) (n - 1 - w.lng)

/-- Inverse of the index re-mapping of `celestialView`: sends a base-buffer
multi-index to the corresponding view multi-index. -/
def invViewIdx (w : WCS) (n : Nat) (idx : List Nat) : List Nat :=
  if w.lng = 1 ∧ w.lat = 0 then swapTwo idx (n - 1) (n - 2)
  else swapTwo (swapTwo idx (n - 2) (n - 1 - w.lat)) (n - 1) (n - 1 - w.lng)

/-- The data produced by one call of `iterate_over_celestial_slices`:
the number of yielded slice pairs, the 2-D extents of input and output
slices, the input slices themselves, and the position (slice index, row,
column) at which each base output element is written. -/
structure CelestialIter where
  n_remaining : Nat
  ny_in : Nat
  nx_in : Nat
  ny_out : Nat
  nx_out : Nat
  sliceIn : Nat → Nat → Nat → FP
  outPos : List Nat → Nat × Nat × Nat

/-- `iterate_over_celestial_slices`: swap the celestial axes to the trailing
two positions of both arrays, flatten the remaining axes, fail if the
flattened extents disagree, and otherwise yield the co-indexed 2-D slice
pairs (as views into the two buffers). -/
def iterate_over_celestial_slices (array_in array_out : NDArr) (w : WCS) :
    Except String CelestialIter :=
  let vin := celestialView array_in w
  let vout := celestialView array_out w
  let n_in := vin.shape.length
  let n_out := vout.shape.length
  let nx_in := vin.shape.getD (n_in - 1) 0
  let ny_in := vin.shape.getD (n_in - 2) 0
  let n_rem_in := vin.shape.prod / nx_in / ny_in
  let nx_out := vout.shape.getD (n_out - 1) 0
  let ny_out := vout.shape.getD (n_out - 2) 0
  let n_rem_out := vout.shape.prod / nx_out / ny_out
  if n_rem_in ≠ n_rem_out then .error "Number of non-celestial elements should match"
  else .ok
    { n_remaining := n_rem_in
      ny_in := ny_in
      nx_in := nx_in
      ny_out := ny_out
      nx_out := nx_out
      sliceIn := fun r yy xx => vin.val (delin vin.shape ((r * ny_in + yy) * nx_in + xx))
      outPos := fun idx =>
        let p := linIdx vout.shape (invViewIdx w n_out idx)
        (p / (ny_out * nx_out), p % (ny_out * nx_out) / nx_out, p % nx_out) }

/-- `np.any(wcs_in.wcs.axis_types != wcs_out.wcs.axis_types)`: elementwise
comparison of the axis-type tags. -/
def axisTypesDiffer (w1 w2 : WCS) : Bool :=
  (w1.axis_types.zip w2.axis_types).any fun p => p.1 != p.2

/-- The slice-wise branch of `_reproject`: allocate a zero output of
`shape_out`, iterate over celestial slice pairs, compute the pixel
coordinate map once for the 2-D slice shape from the celestial
sub-systems, and interpolate every input slice into its output slice. -/
def slicePathNew (fm : FrameMap) (array : NDArr) (wcs_in wcs_out : WCS)
    (shape_out : List Nat) : Except String NDArr :=
  (iterate_over_celestial_slices array (zerosND shape_out) wcs_in).bind fun it =>
  (get_input_pixels fm wcs_in.celestial wcs_out.celestial [it.ny_out, it.nx_out]).map fun f =>
  ⟨shape_out, fun idx =>
    let rp := it.outPos idx
    let c := f [rp.2.1, rp.2.2]
    map_coordinates
      ⟨[it.ny_in, it.nx_in], fun sidx => it.sliceIn rp.1 (sidx.getD 0 0) (sidx.getD 1 0)⟩
      FP.nan [c.getD 1 0, c.getD 0 0]⟩

/-- The whole-volume branch of `_reproject`: compute the full 3-axis pixel
coordinate map, zero the non-finite input samples in place (visible to the
caller when the input buffer was already floating point), and interpolate
the whole volume with fill value NaN.  Returns the caller-visible input
buffer after the call together with the interpolated output. -/
def volumeNew (fm : FrameMap) (array : NDArr) (isFloat : Bool) (wcs_in wcs_out : WCS)
    (shape_out : List Nat) : Except String (NDArr × NDArr) :=
  (get_input_pixels fm wcs_in wcs_out shape_out).map fun f =>
    (if isFloat then zeroNonfinite array else array,
     ⟨shape_out, fun idx =>
        map_coordinates (zeroNonfinite array) FP.nan ((f idx).reverse)⟩)

/-- `_reproject(array, wcs_in, wcs_out, shape_out, order=1)`: cast the input
to float (aliasing the caller's buffer when it already is float, recorded by
`isFloat`), reject non-equivalent coordinate systems, branch between the
whole-volume and the slice-wise path, and return the caller-visible input
buffer after the call, the resampled output and the footprint
`(~np.isnan(output)).astype(float)`. -/
def _reproject (fm : FrameMap) (array : NDArr) (isFloat : Bool) (wcs_in wcs_out : WCS)
    (shape_out : List Nat) : Except String (NDArr × NDArr × NDArr) :=
  if wcs_in.naxis = wcs_out.naxis ∧ axisTypesDiffer wcs_in wcs_out then
    .error "The input and output WCS are not equivalent"
  else
    (if 3 ≤ shape_out.length ∧ shape_out.headD 0 ≠ array.shape.headD 0 then
      volumeNew fm array isFloat wcs_in wcs_out shape_out
     else
      (slicePathNew fm array wcs_in wcs_out shape_out).map fun an => (array, an)).map
    fun p => (p.1, p.2, footprintOf p.2)

/-- A coordinate system with given rank and celestial axis indices whose
pixel↔world mappings are all the identity (an identity pixel grid). -/
def wcsOfAxes (n lng lat : Nat) : WCS :=
  { naxis := n
    axis_types := List.replicate n 0
    lng := lng
    lat := lat
    frame := 0
    cel_pix2world := fun x y => (x, y)
    cel_world2pix := fun x y => (x, y)
    pix2world3 := fun x y z => (x, y, z)
    spec_world2pix := fun z => z }

/-- The identity frame conversion (both systems share a frame). -/
def idFM : FrameMap := fun _ _ p => p

/-- The base-axis labels occupying each position of the celestial-axes-last
view, for an array of rank `n` and WCS celestial indices `lng`, `lat`:
`celestialView` applied to an array whose shape is the label list
`[0, …, n-1]`. -/
def celestialAxes (n lng lat : Nat) : List Nat :=
  (celestialView ⟨List.range n, fun _ => FP.fin 0⟩ (wcsOfAxes n lng lat)).shape

/-- The product of the extents of all axes other than the two celestial
axes (numpy positions `n-1-lng` and `n-1-lat`) of a shape. -/
def nonCelestialProduct (l : List Nat) (lng lat : Nat) : Nat :=
  ∏ i ∈ (((Finset.range l.length).erase (l.length - 1 - lng)).erase (l.length - 1 - lat)),
    l.getD i 0



/-- Identity 2-axis coordinate system. -/
def idW2 : WCS := wcsOfAxes 2 0 1

/-- Identity 3-axis coordinate system. -/
def idW3 : WCS := wcsOfAxes 3 0 1

/-- Identity 5-axis coordinate system. -/
def idW5 : WCS := wcsOfAxes 5 0 1

/-- A 2-axis system with axis-type tags `[0, 1]`. -/
def idW2a : WCS := { wcsOfAxes 2 0 1 with axis_types := [0, 1] }

/-- A 2-axis system with axis-type tags `[0, 2]`. -/
def idW2b : WCS := { wcsOfAxes 2 0 1 with axis_types := [0, 2] }

/-- A 1×1 grid holding `+inf`. -/
def gridInf : NDArr := ⟨[1, 1], fun _ => FP.inf⟩

/-- A 1×1×1 cube holding NaN. -/
def gridNan3 : NDArr := ⟨[1, 1, 1], fun _ => FP.nan⟩

/-- A rank-5 all-sevens array of shape `(1,1,1,1,1)`. -/
def grid5 : NDArr := ⟨[1, 1, 1, 1, 1], fun _ => FP.fin 7⟩

/-- A 2×2 grid of distinct finite values. -/
def grid22 : NDArr := ⟨[2, 2], fun idx => FP.fin ((idx.getD 0 0 : ℚ) * 2 + (idx.getD 1 0 : ℚ))⟩

/-- A 5×5 grid of distinct increasing finite values. -/
def grid55 : NDArr := ⟨[5, 5], fun idx => FP.fin ((idx.getD 0 0 : ℚ) * 5 + (idx.getD 1 0 : ℚ))⟩

/-- An all-zero array of shape `(2,5,7)`. -/
def arr257 : NDArr := ⟨[2, 5, 7], fun _ => FP.fin 0⟩

/-- An all-zero array of shape `(2,5,9)`. -/
def arr259 : NDArr := ⟨[2, 5, 9], fun _ => FP.fin 0⟩

/-- An all-zero array of shape `(1,2,2)`. -/
def arr122 : NDArr := ⟨[1, 2, 2], fun _ => FP.fin 0⟩

/-- An all-zero array of shape `(2,2,2)`. -/
def arr222 : NDArr := ⟨[2, 2, 2], fun _ => FP.fin 0⟩

/-! ### Helper lemmas -/

theorem FP.isnan_of_isfinite {v : FP} (h : v.isfinite = true) : v.isnan = false := by
  cases v <;> simp_all [FP.isfinite, FP.isnan]

theorem getD_set_self (l : List Nat) (n a : Nat) (h : n < l.length) :
    (l.set n a).getD n 0 = a := by
  simp [List.getD, List.getElem?_set_self', List.getElem?_eq_getElem h]

theorem getD_set_ne (l : List Nat) (n a i : Nat) (h : i ≠ n) :
    (l.set n a).getD i 0 = l.getD i 0 := by
  simp [List.getD, List.getElem?_set_ne (by omega : n ≠ i)]

theorem swapTwo_length (l : List Nat) (p q : Nat) :
    (swapTwo l p q).length = l.length := by
  simp [swapTwo]

theorem getD_swapTwo (l : List Nat) (p q i : Nat) (hp : p < l.length) (hq : q < l.length) :
    (swapTwo l p q).getD i 0 =
      if i = q then l.getD p 0 else if i = p then l.getD q 0 else l.getD i 0 := by
  unfold swapTwo
  by_cases hiq : i = q
  · subst hiq
    rw [if_pos rfl]
    exact getD_set_self _ _ _ (by simpa using hq)
  · rw [if_neg hiq, getD_set_ne _ _ _ _ hiq]
    by_cases hip : i = p
    · subst hip
      rw [if_pos rfl]
      exact getD_set_self _ _ _ hp
    · rw [if_neg hip]
      exact getD_set_ne _ _ _ _ hip

theorem prod_getD_range (l : List Nat) :
    l.prod = ∏ i ∈ Finset.range l.length, l.getD i 0 := by
  induction l with
  | nil => simp
  | cons a t ih =>
      rw [List.prod_cons, ih, List.length_cons, Finset.prod_range_succ']
      simp only [List.getD_cons_succ, List.getD_cons_zero]
      ring

theorem prod_swapTwo (l : List Nat) (p q : Nat) (hp : p < l.length) (hq : q < l.length) :
    (swapTwo l p q).prod = l.prod := by
  rw [prod_getD_range, prod_getD_range, swapTwo_length]
  have h1 : ∀ i ∈ Finset.range l.length,
      (swapTwo l p q).getD i 0 = l.getD (Equiv.swap p q i) 0 := by
    intro i _
    rw [getD_swapTwo l p q i hp hq]
    simp only [Equiv.swap_apply_def]
    split_ifs <;> first | rfl | (congr 1; omega)
  rw [Finset.prod_congr rfl h1]
  refine Finset.prod_bij' (fun a _ => Equiv.swap p q a) (fun a _ => Equiv.swap p q a)
    ?_ ?_ ?_ ?_ ?_
  · intro a ha
    rw [Finset.mem_range] at ha ⊢
    simp only [Equiv.swap_apply_def]
    split_ifs <;> omega
  · intro a ha
    rw [Finset.mem_range] at ha ⊢
    simp only [Equiv.swap_apply_def]
    split_ifs <;> omega
  · intro a _
    exact Equiv.swap_apply_self p q a
  · intro a _
    exact Equiv.swap_apply_self p q a
  · intro a _
    rfl

theorem range_getD (n i : Nat) (h : i < n) : (List.range n).getD i 0 = i := by
  rw [List.getD_eq_getElem _ _ (by simpa using h)]
  simp

theorem prod_decompose (l : List Nat) (A B : Nat) (hA : A < l.length) (hB : B < l.length)
    (hAB : A ≠ B) :
    l.prod = l.getD A 0 *
      (l.getD B 0 * ∏ i ∈ ((Finset.range l.length).erase A).erase B, l.getD i 0) := by
  rw [prod_getD_range, ← Finset.mul_prod_erase _ _ (Finset.mem_range.mpr hA)]
  congr 1
  rw [← Finset.mul_prod_erase _ _
    (Finset.mem_erase.mpr ⟨fun h => hAB h.symm, Finset.mem_range.mpr hB⟩)]

theorem nlerp_natCast (f : List Nat → FP) (ks : List Nat) :
    nlerp f (ks.map (Nat.cast : Nat → ℚ)) = f ks := by
  induction ks generalizing f with
  | nil => rfl
  | cons k ks ih =>
      rw [List.map_cons]
      rw [nlerp]
      rw [if_pos (by rw [Int.floor_natCast]; push_cast; ring)]
      rw [Int.floor_natCast]
      simpa using ih (fun is => f (k :: is))

theorem pad_shape (img : NDArr) (ny nx : Nat) (h : img.shape = [ny, nx]) :
    (pad_edge_1 img).shape = [ny + 2, nx + 2] := by
  simp [pad_edge_1, pad_edge_np, h]

theorem pad_val (img : NDArr) (ny nx : Nat) (h : img.shape = [ny, nx]) (i j : Nat) :
    (pad_edge_1 img).val [i, j] = img.val [min (i - 1) (ny - 1), min (j - 1) (nx - 1)] := by
  simp [pad_edge_1, pad_edge_np, h]

theorem map_coordinates_int (img : NDArr) (ny nx i j : Nat) (h : img.shape = [ny, nx])
    (hi : i < ny) (hj : j < nx) (cval : FP) :
    map_coordinates img cval [(i : ℚ), (j : ℚ)] = img.val [i, j] := by
  have hci : (i : ℚ) ≤ (ny : ℚ) - 1 := by
    have : (i : ℚ) + 1 ≤ (ny : ℚ) := by exact_mod_cast Nat.succ_le_of_lt hi
    linarith
  have hcj : (j : ℚ) ≤ (nx : ℚ) - 1 := by
    have : (j : ℚ) + 1 ≤ (nx : ℚ) := by exact_mod_cast Nat.succ_le_of_lt hj
    linarith
  unfold map_coordinates
  rw [if_pos (by rw [h]; rfl)]
  simp only [h, List.getD_cons_zero, List.getD_cons_succ]
  rw [if_neg (by
    push_neg
    have h0i : (0 : ℚ) ≤ (i : ℚ) := Nat.cast_nonneg i
    have h0j : (0 : ℚ) ≤ (j : ℚ) := Nat.cast_nonneg j
    refine ⟨?_, ?_, ?_, ?_⟩ <;> linarith)]
  have hmap : List.map (· + (1 : ℚ)) [(i : ℚ), (j : ℚ)]
      = List.map (Nat.cast : Nat → ℚ) [i + 1, j + 1] := by
    simp only [List.map_cons, List.map_nil]
    push_cast
    ring_nf
  rw [hmap]
  unfold scipy_map_coordinates
  rw [if_pos ?side]
  case side =>
    constructor
    · rw [pad_shape img ny nx h]
      rfl
    · rw [pad_shape img ny nx h]
      simp only [List.map_cons, List.map_nil, List.zip_cons_cons, List.zip_nil_right,
        List.all_cons, List.all_nil, Bool.and_true, Bool.and_eq_true, decide_eq_true_eq]
      push_cast
      refine ⟨⟨by positivity, by linarith⟩, by positivity, by linarith⟩
  rw [nlerp_natCast]
  rw [pad_val img ny nx h]
  congr 1
  simp only [Nat.add_sub_cancel]
  rw [Nat.min_eq_left (by omega), Nat.min_eq_left (by omega)]

theorem scale_split_add (v : FP) (t : ℚ) (h0 : 0 < t) (h1 : t < 1) :
    (v.scale (1 - t)).add (v.scale t) = v := by
  have h2 : 0 < 1 - t := by linarith
  have h3 : ¬(1 - t = 0) := by intro h; rw [sub_eq_zero] at h; exact absurd h.symm (by linarith)
  cases v with
  | fin q => show FP.fin ((1 - t) * q + t * q) = FP.fin q; congr 1; ring
  | inf => simp [FP.scale, FP.add, h0, h2]
  | ninf => simp [FP.scale, FP.add, h0, h2]
  | nan => simp [FP.scale, FP.add]

theorem nlerp_half_first (f : List Nat → FP) (ks : List Nat) :
    nlerp f ((1/2 : ℚ) :: ks.map (Nat.cast : Nat → ℚ))
      = ((f (0 :: ks)).scale (1 - 1/2)).add ((f (1 :: ks)).scale (1/2)) := by
  have hf : Int.floor ((1 : ℚ)/2) = 0 := by
    rw [Int.floor_eq_zero_iff]
    constructor <;> norm_num
  rw [nlerp]
  rw [if_neg (by rw [hf]; norm_num)]
  rw [hf]
  norm_num
  rw [nlerp_natCast (fun is => f (0 :: is)), nlerp_natCast (fun is => f (1 :: is))]

/-- C2: on a 2-D grid, the edge-corrected interpolator samples fractional
coordinate `(-0.5, c)` to exactly the grid value at `(0, c)` (edge
replication of the padded row), and samples `(-0.6, c)` to the designated
fill value `cval` (beyond the true half-pixel coverage). -/
theorem C2_edge_replication (a : NDArr) (ny nx c : Nat) (cval : FP)
    (h : a.shape = [ny, nx]) (hny : 1 ≤ ny) (hc : c < nx) :
    map_coordinates a cval [-(1/2 : ℚ), (c : ℚ)] = a.val [0, c] ∧
    map_coordinates a cval [-(3/5 : ℚ), (c : ℚ)] = cval := by
  have hcnx : (c : ℚ) ≤ (nx : ℚ) - 1 := by
    have : (c : ℚ) + 1 ≤ (nx : ℚ) := by exact_mod_cast Nat.succ_le_of_lt hc
    linarith
  have hny' : (1 : ℚ) ≤ (ny : ℚ) := by exact_mod_cast hny
  have h0c : (0 : ℚ) ≤ (c : ℚ) := Nat.cast_nonneg c
  constructor
  · unfold map_coordinates
    rw [if_pos (by rw [h]; rfl)]
    simp only [h, List.getD_cons_zero, List.getD_cons_succ]
    rw [if_neg (by push_neg; refine ⟨?_, ?_, ?_, ?_⟩ <;> linarith)]
    unfold scipy_map_coordinates
    rw [if_pos ?inrange]
    case inrange =>
      constructor
      · rw [pad_shape a ny nx h]
        rfl
      · rw [pad_shape a ny nx h]
        simp only [List.map_cons, List.map_nil, List.zip_cons_cons, List.zip_nil_right,
          List.all_cons, List.all_nil, Bool.and_true, Bool.and_eq_true, decide_eq_true_eq]
        push_cast
        refine ⟨⟨by linarith, by linarith⟩, by linarith, by linarith⟩
    simp only [List.map_cons, List.map_nil]
    rw [show (-(1/2 : ℚ) + 1) = 1/2 by norm_num]
    rw [show ((c : ℚ) + 1) = ((c + 1 : Nat) : ℚ) by push_cast; ring]
    rw [show [((c + 1 : Nat) : ℚ)] = List.map (Nat.cast : Nat → ℚ) [c + 1] by simp]
    rw [nlerp_half_first]
    rw [pad_val a ny nx h, pad_val a ny nx h]
    simp only [Nat.zero_sub, Nat.add_sub_cancel, Nat.sub_self, Nat.zero_min]
    rw [Nat.min_eq_left (by omega)]
    exact scale_split_add _ (1/2) (by norm_num) (by norm_num)
  · unfold map_coordinates
    rw [if_pos (by rw [h]; rfl)]
    simp only [h, List.getD_cons_zero, List.getD_cons_succ]
    rw [if_pos (Or.inl (by norm_num))]

theorem celView_length (a : NDArr) (w : WCS) :
    (celestialView a w).shape.length = a.shape.length := by
  unfold celestialView NDArr.swapaxes
  split_ifs <;> simp [swapTwo_length]

theorem celView_trailing (a : NDArr) (w : WCS)
    (hn : 2 ≤ a.shape.length) (hlng : w.lng < a.shape.length)
    (hlat : w.lat < a.shape.length) (hne : w.lng ≠ w.lat)
    (hgood : ¬(w.lng = 1 ∧ 2 ≤ w.lat)) :
    (celestialView a w).shape.getD (a.shape.length - 1) 0
        = a.shape.getD (a.shape.length - 1 - w.lng) 0 ∧
    (celestialView a w).shape.getD (a.shape.length - 2) 0
        = a.shape.getD (a.shape.length - 1 - w.lat) 0 := by
  unfold celestialView NDArr.swapaxes
  by_cases hb : w.lng = 1 ∧ w.lat = 0
  · rw [if_pos hb]
    obtain ⟨hl, ht⟩ := hb
    have gsw : ∀ i, (swapTwo a.shape (a.shape.length - 1) (a.shape.length - 2)).getD i 0 =
        if i = a.shape.length - 2 then a.shape.getD (a.shape.length - 1) 0
        else if i = a.shape.length - 1 then a.shape.getD (a.shape.length - 2) 0
        else a.shape.getD i 0 :=
      fun i => getD_swapTwo _ _ _ i (by omega) (by omega)
    dsimp only
    rw [gsw, gsw]
    constructor
    · rw [if_neg (by omega), if_pos rfl]
      congr 1
      omega
    · rw [if_pos rfl]
      congr 1
      omega
  · rw [if_neg hb]
    have hlng1 : w.lng ≠ 1 := by
      intro hl
      rcases (by omega : w.lat = 0 ∨ w.lat = 1 ∨ 2 ≤ w.lat) with h | h | h
      · exact hb ⟨hl, h⟩
      · exact hne (by omega)
      · exact hgood ⟨hl, h⟩
    have gin : ∀ i, (swapTwo a.shape (a.shape.length - 2) (a.shape.length - 1 - w.lat)).getD i 0 =
        if i = a.shape.length - 1 - w.lat then a.shape.getD (a.shape.length - 2) 0
        else if i = a.shape.length - 2 then a.shape.getD (a.shape.length - 1 - w.lat) 0
        else a.shape.getD i 0 :=
      fun i => getD_swapTwo _ _ _ i (by omega) (by omega)
    have gout : ∀ i,
        (swapTwo (swapTwo a.shape (a.shape.length - 2) (a.shape.length - 1 - w.lat))
            (a.shape.length - 1) (a.shape.length - 1 - w.lng)).getD i 0 =
        if i = a.shape.length - 1 - w.lng
        then (swapTwo a.shape (a.shape.length - 2) (a.shape.length - 1 - w.lat)).getD
              (a.shape.length - 1) 0
        else if i = a.shape.length - 1
        then (swapTwo a.shape (a.shape.length - 2) (a.shape.length - 1 - w.lat)).getD
              (a.shape.length - 1 - w.lng) 0
        else (swapTwo a.shape (a.shape.length - 2) (a.shape.length - 1 - w.lat)).getD i 0 :=
      fun i => getD_swapTwo _ _ _ i (by rw [swapTwo_length]; omega) (by rw [swapTwo_length]; omega)
    dsimp only
    rw [gout, gout]
    simp only [gin]
    constructor <;>
      (split_ifs <;> exact congrArg (a.shape.getD · 0) (by omega))

theorem celView_bad_last (a : NDArr) (w : WCS)
    (hlng : w.lng = 1) (hlat2 : 2 ≤ w.lat) (hlat : w.lat < a.shape.length) :
    (celestialView a w).shape.getD (a.shape.length - 1) 0
        = a.shape.getD (a.shape.length - 1 - w.lat) 0 := by
  unfold celestialView NDArr.swapaxes
  rw [if_neg (by omega)]
  have gin : ∀ i, (swapTwo a.shape (a.shape.length - 2) (a.shape.length - 1 - w.lat)).getD i 0 =
      if i = a.shape.length - 1 - w.lat then a.shape.getD (a.shape.length - 2) 0
      else if i = a.shape.length - 2 then a.shape.getD (a.shape.length - 1 - w.lat) 0
      else a.shape.getD i 0 :=
    fun i => getD_swapTwo _ _ _ i (by omega) (by omega)
  have gout : ∀ i,
      (swapTwo (swapTwo a.shape (a.shape.length - 2) (a.shape.length - 1 - w.lat))
          (a.shape.length - 1) (a.shape.length - 1 - w.lng)).getD i 0 =
      if i = a.shape.length - 1 - w.lng
      then (swapTwo a.shape (a.shape.length - 2) (a.shape.length - 1 - w.lat)).getD
            (a.shape.length - 1) 0
      else if i = a.shape.length - 1
      then (swapTwo a.shape (a.shape.length - 2) (a.shape.length - 1 - w.lat)).getD
            (a.shape.length - 1 - w.lng) 0
      else (swapTwo a.shape (a.shape.length - 2) (a.shape.length - 1 - w.lat)).getD i 0 :=
    fun i => getD_swapTwo _ _ _ i (by rw [swapTwo_length]; omega) (by rw [swapTwo_length]; omega)
  dsimp only
  rw [gout]
  simp only [gin]
  split_ifs <;> exact congrArg (a.shape.getD · 0) (by omega)

/-- C9 (amended): the celestial-axes-last view places base axis
`n-1-lng` (the longitude axis) at the trailing position and base axis
`n-1-lat` (the latitude axis) at the second-to-trailing position exactly
when the WCS celestial indices do not satisfy `lng = 1 ∧ lat ≥ 2`; in
that remaining corner the composed axis swaps misplace the axes. -/
theorem C9_axis_placement (n lng lat : Nat) (hn : 2 ≤ n) (hlng : lng < n)
    (hlat : lat < n) (hne : lng ≠ lat) :
    ((celestialAxes n lng lat).getD (n - 1) 0 = n - 1 - lng ∧
     (celestialAxes n lng lat).getD (n - 2) 0 = n - 1 - lat)
    ↔ ¬(lng = 1 ∧ 2 ≤ lat) := by
  have hlen : (⟨List.range n, fun _ => FP.fin 0⟩ : NDArr).shape.length = n := by
    simp
  have hwlng : (wcsOfAxes n lng lat).lng = lng := rfl
  have hwlat : (wcsOfAxes n lng lat).lat = lat := rfl
  have hsh : (⟨List.range n, fun _ => FP.fin 0⟩ : NDArr).shape = List.range n := rfl
  constructor
  · intro hplace hbad
    obtain ⟨hl1, hl2⟩ := hbad
    have hb := celView_bad_last ⟨List.range n, fun _ => FP.fin 0⟩ (wcsOfAxes n lng lat)
      (by rw [hwlng, hl1]) (by rw [hwlat]; exact hl2) (by rw [hwlat, hsh]; simpa using hlat)
    rw [hwlat, hsh, List.length_range, range_getD n _ (by omega)] at hb
    unfold celestialAxes at hplace
    rw [hb] at hplace
    omega
  · intro hgood
    have ht := celView_trailing ⟨List.range n, fun _ => FP.fin 0⟩ (wcsOfAxes n lng lat)
      (by rw [hsh]; simpa using hn) (by rw [hwlng, hsh]; simpa using hlng)
      (by rw [hwlat, hsh]; simpa using hlat) (by rw [hwlng, hwlat]; exact hne)
      (by rw [hwlng, hwlat]; exact hgood)
    rw [hwlng, hwlat, hsh, List.length_range] at ht
    unfold celestialAxes
    rw [ht.1, ht.2, range_getD n _ (by omega), range_getD n _ (by omega)]
    exact ⟨rfl, rfl⟩

theorem getD_mem_of_lt (l : List Nat) (i : Nat) (h : i < l.length) : l.getD i 0 ∈ l := by
  rw [List.getD_eq_getElem _ _ h]
  exact List.getElem_mem h

theorem celView_prod (a : NDArr) (w : WCS) (hn : 2 ≤ a.shape.length)
    (hlng : w.lng < a.shape.length) (hlat : w.lat < a.shape.length) :
    (celestialView a w).shape.prod = a.shape.prod := by
  unfold celestialView NDArr.swapaxes
  split_ifs
  · exact prod_swapTwo _ _ _ (by omega) (by omega)
  · dsimp only
    rw [prod_swapTwo _ _ _ (by rw [swapTwo_length]; omega) (by rw [swapTwo_length]; omega)]
    exact prod_swapTwo _ _ _ (by omega) (by omega)

theorem nrem_eq_nonCel (a : NDArr) (w : WCS)
    (hn : 2 ≤ a.shape.length) (hlng : w.lng < a.shape.length) (hlat : w.lat < a.shape.length)
    (hne : w.lng ≠ w.lat) (hgood : ¬(w.lng = 1 ∧ 2 ≤ w.lat))
    (hpos : ∀ d ∈ a.shape, 0 < d) :
    (celestialView a w).shape.prod
        / (celestialView a w).shape.getD ((celestialView a w).shape.length - 1) 0
        / (celestialView a w).shape.getD ((celestialView a w).shape.length - 2) 0
      = nonCelestialProduct a.shape w.lng w.lat := by
  rw [celView_length]
  obtain ⟨h1, h2⟩ := celView_trailing a w hn hlng hlat hne hgood
  rw [h1, h2, celView_prod a w hn hlng hlat]
  have hd := prod_decompose a.shape (a.shape.length - 1 - w.lng) (a.shape.length - 1 - w.lat)
    (by omega) (by omega) (by omega)
  rw [hd]
  have hA : 0 < a.shape.getD (a.shape.length - 1 - w.lng) 0 :=
    hpos _ (getD_mem_of_lt _ _ (by omega))
  have hB : 0 < a.shape.getD (a.shape.length - 1 - w.lat) 0 :=
    hpos _ (getD_mem_of_lt _ _ (by omega))
  rw [Nat.mul_div_cancel_left _ hA, Nat.mul_div_cancel_left _ hB]
  rfl

/-- C7 (amended): for axis configurations where the celestial axes are
correctly moved to the trailing view positions (every valid configuration
except `lng = 1 ∧ lat ≥ 2`), slice-wise iteration fails with the
shape-mismatch error exactly when the products of the non-celestial axis
extents of the two arrays disagree, and otherwise yields exactly that many
slice pairs. -/
theorem C7_shape_mismatch (a b : NDArr) (w : WCS)
    (hna : 2 ≤ a.shape.length) (hnb : 2 ≤ b.shape.length)
    (hlnga : w.lng < a.shape.length) (hlata : w.lat < a.shape.length)
    (hlngb : w.lng < b.shape.length) (hlatb : w.lat < b.shape.length)
    (hne : w.lng ≠ w.lat) (hgood : ¬(w.lng = 1 ∧ 2 ≤ w.lat))
    (hposa : ∀ d ∈ a.shape, 0 < d) (hposb : ∀ d ∈ b.shape, 0 < d) :
    (iterate_over_celestial_slices a b w
        = .error "Number of non-celestial elements should match"
      ↔ nonCelestialProduct a.shape w.lng w.lat ≠ nonCelestialProduct b.shape w.lng w.lat)
    ∧ ∀ it, iterate_over_celestial_slices a b w = .ok it →
        it.n_remaining = nonCelestialProduct a.shape w.lng w.lat := by
  have ha := nrem_eq_nonCel a w hna hlnga hlata hne hgood hposa
  have hb := nrem_eq_nonCel b w hnb hlngb hlatb hne hgood hposb
  unfold iterate_over_celestial_slices
  dsimp only
  rw [ha, hb]
  by_cases hcond : nonCelestialProduct a.shape w.lng w.lat
      ≠ nonCelestialProduct b.shape w.lng w.lat
  · rw [if_pos hcond]
    refine ⟨⟨fun _ => hcond, fun _ => rfl⟩, ?_⟩
    intro it h
    exact absurd h (by simp)
  · rw [if_neg hcond]
    constructor
    · constructor
      · intro h
        exact absurd h (by simp)
      · intro h
        exact absurd h hcond
    · intro it h
      rw [← Except.ok.inj h]

/-- C10: on any non-empty 2-D array, the manual fallback padding (the
`except` arm of `pad_edge_1`) agrees exactly with the primary
`np.pad(array, 1, mode='edge')` path: border rows/columns replicate the
adjacent interior ones and corners replicate the nearest edge value. -/
theorem C10_pad_fallback_eq (a : NDArr) (ny nx : Nat) (h : a.shape = [ny, nx])
    (hny : 1 ≤ ny) (hnx : 1 ≤ nx) :
    (pad_edge_1_fallback a).shape = (pad_edge_np a).shape ∧
    ∀ i j, i < ny + 2 → j < nx + 2 →
      (pad_edge_1_fallback a).val [i, j] = (pad_edge_np a).val [i, j] := by
  constructor
  · simp [pad_edge_1_fallback, pad_edge_np, h]
  · intro i j hi hj
    simp only [pad_edge_1_fallback, pad_edge_np, h, List.getD_cons_zero, List.getD_cons_succ]
    split_ifs <;>
      first
        | (exact congrArg a.val (by simp only [List.cons.injEq, and_true]; omega))
        | (exfalso; omega)

theorem exceptMap_error {α β : Type} (x : Except String α) (f : α → β) (e : String)
    (h : x.map f = .error e) : x = .error e := by
  cases x with
  | error e2 =>
      simp only [Except.map] at h
      rw [Except.error.inj h]
  | ok a => simp [Except.map] at h

theorem gip_error (fm : FrameMap) (w1 w2 : WCS) (s : List Nat) (e : String)
    (h : get_input_pixels fm w1 w2 s = .error e) : e = ">3 dimensional cube" := by
  unfold get_input_pixels at h
  by_cases hc : 3 < s.length
  · rw [if_pos hc] at h
    exact (Except.error.inj h).symm
  · rw [if_neg hc] at h
    exact absurd h (by simp)

theorem iterate_error (a b : NDArr) (w : WCS) (e : String)
    (h : iterate_over_celestial_slices a b w = .error e) :
    e = "Number of non-celestial elements should match" := by
  unfold iterate_over_celestial_slices at h
  dsimp only at h
  split_ifs at h
  exact (Except.error.inj h).symm

theorem slicePathNew_error (fm : FrameMap) (array : NDArr) (w1 w2 : WCS) (s : List Nat)
    (e : String) (h : slicePathNew fm array w1 w2 s = .error e) :
    e = "Number of non-celestial elements should match" := by
  unfold slicePathNew at h
  cases hiter : iterate_over_celestial_slices array (zerosND s) w1 with
  | error e2 =>
      rw [hiter] at h
      simp only [Except.bind] at h
      rw [← Except.error.inj h]
      exact iterate_error _ _ _ _ hiter
  | ok it =>
      rw [hiter] at h
      simp only [Except.bind] at h
      unfold get_input_pixels at h
      rw [if_neg (by simp)] at h
      simp [Except.map] at h

theorem volumeNew_error (fm : FrameMap) (array : NDArr) (isFloat : Bool) (w1 w2 : WCS)
    (s : List Nat) (e : String) (h : volumeNew fm array isFloat w1 w2 s = .error e) :
    e = ">3 dimensional cube" := by
  unfold volumeNew at h
  exact gip_error _ _ _ _ _ (exceptMap_error _ _ _ h)

theorem axisTypesDiffer_iff (w1 w2 : WCS)
    (h : w1.axis_types.length = w2.axis_types.length) :
    axisTypesDiffer w1 w2 = true ↔
      ∃ i < w1.axis_types.length,
        w1.axis_types.getD i 0 ≠ w2.axis_types.getD i 0 := by
  unfold axisTypesDiffer
  rw [List.any_eq_true]
  constructor
  · rintro ⟨p, hp, hne⟩
    obtain ⟨i, hi, hpi⟩ := List.mem_iff_getElem.mp hp
    have hlen : i < w1.axis_types.length := by
      rw [List.length_zip] at hi
      omega
    have hlen2 : i < w2.axis_types.length := by omega
    refine ⟨i, hlen, ?_⟩
    rw [List.getD_eq_getElem _ _ hlen, List.getD_eq_getElem _ _ hlen2]
    rw [List.getElem_zip] at hpi
    rw [← hpi] at hne
    exact bne_iff_ne.mp hne
  · rintro ⟨i, hi, hne⟩
    have hlen2 : i < w2.axis_types.length := by omega
    refine ⟨(w1.axis_types[i], w2.axis_types[i]), ?_, ?_⟩
    · exact List.mem_iff_getElem.mpr ⟨i, by rw [List.length_zip]; omega, List.getElem_zip ..⟩
    · rw [List.getD_eq_getElem _ _ hi, List.getD_eq_getElem _ _ hlen2] at hne
      exact bne_iff_ne.mpr hne

/-- C5: `_reproject` fails with the "not equivalent" coordinate-system
error exactly when the two systems report the same total axis count and
their axis-type tags differ at some position; with differing axis counts
the type check is skipped and this error is never raised. -/
theorem C5_wcs_equivalence (fm : FrameMap) (array : NDArr) (isFloat : Bool)
    (wcs_in wcs_out : WCS) (shape_out : List Nat)
    (hl1 : wcs_in.axis_types.length = wcs_in.naxis)
    (hl2 : wcs_out.axis_types.length = wcs_out.naxis) :
    _reproject fm array isFloat wcs_in wcs_out shape_out
        = .error "The input and output WCS are not equivalent"
      ↔ wcs_in.naxis = wcs_out.naxis ∧
        ∃ i < wcs_in.naxis,
          wcs_in.axis_types.getD i 0 ≠ wcs_out.axis_types.getD i 0 := by
  unfold _reproject
  by_cases hc : wcs_in.naxis = wcs_out.naxis ∧ axisTypesDiffer wcs_in wcs_out
  · rw [if_pos hc]
    obtain ⟨h1, h2⟩ := hc
    constructor
    · intro _
      refine ⟨h1, ?_⟩
      have := (axisTypesDiffer_iff wcs_in wcs_out (by omega)).mp h2
      rwa [hl1] at this
    · intro _
      rfl
  · rw [if_neg hc]
    constructor
    · intro he
      exfalso
      have hinner := exceptMap_error _ _ _ he
      split_ifs at hinner with hb
      · exact absurd (volumeNew_error _ _ _ _ _ _ _ hinner) (by decide)
      · have := slicePathNew_error _ _ _ _ _ _ (exceptMap_error _ _ _ hinner)
        exact absurd this (by decide)
    · intro hr
      exfalso
      apply hc
      refine ⟨hr.1, (axisTypesDiffer_iff wcs_in wcs_out (by omega)).mpr ?_⟩
      rw [hl1]
      exact hr.2

/-- C6: `_reproject` takes the whole-volume interpolation path exactly when
the output shape has at least 3 dimensions and its leading extent differs
from the input array's leading extent, and the slice-wise path in every
other case (after the coordinate-system equivalence check passes). -/
theorem C6_path_selection (fm : FrameMap) (array : NDArr) (isFloat : Bool)
    (wcs_in wcs_out : WCS) (shape_out : List Nat)
    (h : ¬(wcs_in.naxis = wcs_out.naxis ∧ axisTypesDiffer wcs_in wcs_out)) :
    (3 ≤ shape_out.length ∧ shape_out.headD 0 ≠ array.shape.headD 0 →
      _reproject fm array isFloat wcs_in wcs_out shape_out
        = (volumeNew fm array isFloat wcs_in wcs_out shape_out).map
            (fun p => (p.1, p.2, footprintOf p.2)))
    ∧ (¬(3 ≤ shape_out.length ∧ shape_out.headD 0 ≠ array.shape.headD 0) →
      _reproject fm array isFloat wcs_in wcs_out shape_out
        = ((slicePathNew fm array wcs_in wcs_out shape_out).map fun an => (array, an)).map
            (fun p => (p.1, p.2, footprintOf p.2))) := by
  unfold _reproject
  rw [if_neg h]
  constructor
  · intro hb
    rw [if_pos hb]
  · intro hb
    rw [if_neg hb]

/-- C3 (amended): on the slice-wise path the caller's input array is never
mutated; on the whole-volume path, when the input buffer is already
floating point (so `np.asarray` aliases it), its non-finite elements are
zeroed in place and that mutation is visible to the caller. -/
theorem C3_input_mutation (fm : FrameMap) (array : NDArr) (isFloat : Bool)
    (wcs_in wcs_out : WCS) (shape_out : List Nat)
    (h : ¬(wcs_in.naxis = wcs_out.naxis ∧ axisTypesDiffer wcs_in wcs_out)) :
    (¬(3 ≤ shape_out.length ∧ shape_out.headD 0 ≠ array.shape.headD 0) →
      ∀ r, _reproject fm array isFloat wcs_in wcs_out shape_out = .ok r → r.1 = array)
    ∧ ((3 ≤ shape_out.length ∧ shape_out.headD 0 ≠ array.shape.headD 0) →
      ∀ r, _reproject fm array isFloat wcs_in wcs_out shape_out = .ok r →
        r.1 = if isFloat then zeroNonfinite array else array) := by
  unfold _reproject
  rw [if_neg h]
  constructor
  · intro hb r hr
    rw [if_neg hb] at hr
    cases hs : slicePathNew fm array wcs_in wcs_out shape_out with
    | error e =>
        rw [hs] at hr
        simp [Except.map] at hr
    | ok an =>
        rw [hs] at hr
        simp only [Except.map] at hr
        rw [← Except.ok.inj hr]
  · intro hb r hr
    rw [if_pos hb] at hr
    unfold volumeNew at hr
    cases hg : get_input_pixels fm wcs_in wcs_out shape_out with
    | error e =>
        rw [hg] at hr
        simp [Except.map] at hr
    | ok f =>
        rw [hg] at hr
        simp only [Except.map] at hr
        rw [← Except.ok.inj hr]

theorem exceptMap_ok {α β : Type} (x : Except String α) (f : α → β) (r : β)
    (h : x.map f = .ok r) : ∃ p, x = .ok p ∧ r = f p := by
  cases x with
  | error e => simp [Except.map] at h
  | ok a => exact ⟨a, rfl, (Except.ok.inj h).symm⟩

theorem footprint_pair (o : NDArr) (idx : List Nat) :
    ((footprintOf o).val idx = FP.fin 1 ↔ (o.val idx).isnan = false)
    ∧ ((footprintOf o).val idx = FP.fin 0 ↔ (o.val idx).isnan = true) := by
  unfold footprintOf
  dsimp only
  cases hn : (o.val idx).isnan <;> simp [hn]

/-- C1 (amended): whenever `_reproject` returns, the footprint at each
output element is `1.0` exactly when that output element is not NaN and
`0.0` exactly when it is NaN; a non-finite but non-NaN output (an
infinity propagated on the slice-wise path) therefore has footprint
`1.0`, not `0.0`. -/
theorem C1_footprint (fm : FrameMap) (array : NDArr) (isFloat : Bool)
    (wcs_in wcs_out : WCS) (shape_out : List Nat) (idx : List Nat) :
    match _reproject fm array isFloat wcs_in wcs_out shape_out with
    | .ok r =>
        (r.2.2.val idx = FP.fin 1 ↔ (r.2.1.val idx).isnan = false)
        ∧ (r.2.2.val idx = FP.fin 0 ↔ (r.2.1.val idx).isnan = true)
    | .error _ => True := by
  cases hx : _reproject fm array isFloat wcs_in wcs_out shape_out with
  | error e => exact trivial
  | ok r =>
      have hfoot : r.2.2 = footprintOf r.2.1 := by
        unfold _reproject at hx
        split_ifs at hx
        · obtain ⟨p, _, hrp⟩ := exceptMap_ok _ _ _ hx
          rw [hrp]
        · obtain ⟨p, _, hrp⟩ := exceptMap_ok _ _ _ hx
          rw [hrp]
      show (r.2.2.val idx = FP.fin 1 ↔ (r.2.1.val idx).isnan = false)
        ∧ (r.2.2.val idx = FP.fin 0 ↔ (r.2.1.val idx).isnan = true)
      rw [hfoot]
      exact footprint_pair _ _

/-- C4 (amended): whenever the whole-volume branch is selected (rank ≥ 3
with differing leading extent) and the output rank is at least 4,
`_reproject` fails with the `">3 dimensional cube"` error before any
output is produced; a rank ≥ 5 request whose leading extent matches the
input's is instead processed slice-wise and does not raise this error. -/
theorem C4_dimensionality (fm : FrameMap) (array : NDArr) (isFloat : Bool)
    (wcs_in wcs_out : WCS) (shape_out : List Nat)
    (h : ¬(wcs_in.naxis = wcs_out.naxis ∧ axisTypesDiffer wcs_in wcs_out))
    (hrank : 4 ≤ shape_out.length)
    (hlead : shape_out.headD 0 ≠ array.shape.headD 0) :
    _reproject fm array isFloat wcs_in wcs_out shape_out
      = .error ">3 dimensional cube" := by
  unfold _reproject
  rw [if_neg h, if_pos ⟨by omega, hlead⟩]
  unfold volumeNew get_input_pixels
  rw [if_pos (show 3 < shape_out.length by omega)]
  rfl

theorem celView2_shape (a : NDArr) (w : WCS) (ny nx : Nat) (ha : a.shape = [ny, nx])
    (hlng : w.lng = 0) (hlat : w.lat = 1) :
    (celestialView a w).shape = [ny, nx] := by
  unfold celestialView NDArr.swapaxes
  rw [if_neg (by omega)]
  dsimp only
  rw [ha]
  simp [swapTwo, hlng, hlat]

theorem celView2_val (a : NDArr) (w : WCS) (ny nx : Nat) (ha : a.shape = [ny, nx])
    (hlng : w.lng = 0) (hlat : w.lat = 1) (u v : Nat) :
    (celestialView a w).val [u, v] = a.val [u, v] := by
  unfold celestialView NDArr.swapaxes
  rw [if_neg (by omega)]
  dsimp only
  rw [ha]
  simp [swapTwo, hlng, hlat]

theorem axisTypesDiffer_self (w : WCS) : axisTypesDiffer w w = false := by
  unfold axisTypesDiffer
  rw [List.any_eq_false]
  intro p hp
  obtain ⟨i, hi, hpi⟩ := List.mem_iff_getElem.mp hp
  rw [List.getElem_zip] at hpi
  rw [← hpi]
  simp

theorem slicePath2D (fm : FrameMap) (w : WCS) (a : NDArr) (ny nx : Nat)
    (ha : a.shape = [ny, nx]) (hny : 1 ≤ ny) (hnx : 1 ≤ nx)
    (hlng : w.lng = 0) (hlat : w.lat = 1)
    (hid : ∀ x y : ℚ, compositePix fm w w x y = (x, y)) :
    ∃ o, slicePathNew fm a w w [ny, nx] = .ok o ∧ o.shape = [ny, nx] ∧
      ∀ i j, i < ny → j < nx → o.val [i, j] = a.val [i, j] := by
  have hsva := celView2_shape a w ny nx ha hlng hlat
  have hsvz := celView2_shape (zerosND [ny, nx]) w ny nx rfl hlng hlat
  have e1 : ([ny, nx] : List Nat).length = 2 := rfl
  have e2 : ([ny, nx] : List Nat).getD 1 0 = nx := rfl
  have e3 : ([ny, nx] : List Nat).getD 0 0 = ny := rfl
  have e4 : ([ny, nx] : List Nat).prod = ny * nx := by simp
  unfold slicePathNew
  unfold iterate_over_celestial_slices
  dsimp only
  rw [hsva, hsvz, e1]
  rw [show (2 : Nat) - 1 = 1 from rfl, show (2 : Nat) - 2 = 0 from rfl]
  rw [e2, e3, e4]
  rw [if_neg (by simp)]
  simp only [Except.bind]
  unfold get_input_pixels
  rw [e1]
  rw [if_neg (by omega : ¬(3 < 2))]
  simp only [Except.map]
  refine ⟨_, rfl, rfl, ?_⟩
  intro i j hi hj
  dsimp only
  rw [show (2 : Nat) - 1 = 1 from rfl, show (2 : Nat) - 2 = 0 from rfl]
  have hinv : invViewIdx w 2 [i, j] = [i, j] := by
    unfold invViewIdx
    rw [if_neg (by omega)]
    simp [hlng, hlat, swapTwo]
  rw [hinv]
  have hlin : linIdx [ny, nx] [i, j] = i * nx + j := by
    simp [linIdx]
  rw [hlin]
  have hlt : i * nx + j < ny * nx := by
    have h1 : (i + 1) * nx = i * nx + nx := by ring
    have h2 : (i + 1) * nx ≤ ny * nx := Nat.mul_le_mul_right nx (by omega)
    omega
  have hdy : (i * nx + j) / nx = i := by
    rw [mul_comm i nx, Nat.mul_add_div (by omega)]
    rw [Nat.div_eq_of_lt hj]
    omega
  have hdx : (i * nx + j) % nx = j := by
    rw [mul_comm i nx, Nat.mul_add_mod]
    exact Nat.mod_eq_of_lt hj
  rw [Nat.div_eq_of_lt hlt, Nat.mod_eq_of_lt hlt, hdy, hdx]
  rw [if_neg (by omega : ¬((2 : Nat) = 3))]
  simp only [List.getD_cons_zero, List.getD_cons_succ]
  have hid2 : ∀ x y : ℚ, compositePix fm w.celestial w.celestial x y = (x, y) :=
    fun x y => hid x y
  rw [hid2]
  simp only [List.getD_cons_zero, List.getD_cons_succ]
  rw [map_coordinates_int _ ny nx i j rfl hi hj]
  simp only [List.getD_cons_zero, List.getD_cons_succ]
  have hdelin : delin [ny, nx] ((0 * ny + i) * nx + j) = [i, j] := by
    simp only [zero_mul, zero_add, delin, List.prod_cons, List.prod_nil, mul_one,
      Nat.div_one]
    rw [hdy, hdx, Nat.mod_eq_of_lt hi, Nat.mod_eq_of_lt hj]
  rw [hdelin, celView2_val a w ny nx ha hlng hlat]

/-- C8: for a finite 2-D grid, when input and output coordinate systems
are the same identity pixel mapping (canonical celestial axis order) and
the output shape equals the input shape, `_reproject` returns the input
unchanged, an output exactly equal to the input, and an all-ones
footprint. -/
theorem C8_identity (fm : FrameMap) (w : WCS) (a : NDArr) (isFloat : Bool) (ny nx : Nat)
    (ha : a.shape = [ny, nx]) (hny : 1 ≤ ny) (hnx : 1 ≤ nx)
    (hlng : w.lng = 0) (hlat : w.lat = 1)
    (hid : ∀ x y : ℚ, compositePix fm w w x y = (x, y))
    (hfin : ∀ i j, i < ny → j < nx → (a.val [i, j]).isfinite = true) :
    ∃ out foot, _reproject fm a isFloat w w [ny, nx] = .ok (a, out, foot) ∧
      out.shape = [ny, nx] ∧
      ∀ i j, i < ny → j < nx →
        out.val [i, j] = a.val [i, j] ∧ foot.val [i, j] = FP.fin 1 := by
  obtain ⟨o, ho, hos, hov⟩ := slicePath2D fm w a ny nx ha hny hnx hlng hlat hid
  refine ⟨o, footprintOf o, ?_, hos, ?_⟩
  · unfold _reproject
    rw [if_neg (by rw [axisTypesDiffer_self]; simp)]
    rw [if_neg (by simp)]
    rw [ho]
    rfl
  · intro i j hi hj
    refine ⟨hov i j hi hj, ?_⟩
    unfold footprintOf
    dsimp only
    rw [hov i j hi hj, FP.isnan_of_isfinite (hfin i j hi hj)]
    rfl

/-- C1 counterexample: on the slice-wise path with an identity mapping,
a `+inf` input propagates to a `+inf` output pixel whose footprint is
`1.0` although the output value is not finite, refuting
`footprint = 1.0 ↔ isfinite(output)`. -/
theorem C1_counterexample :
    ((_reproject idFM gridInf true idW2 idW2 [1, 1]).toOption.map
      (fun r => ((r.2.1.val [0, 0]).isfinite, r.2.2.val [0, 0])))
    = some (false, FP.fin 1) := by
  obtain ⟨o, ho, hos, hov⟩ := slicePath2D idFM idW2 gridInf 1 1 rfl (by decide) (by decide)
    rfl rfl (fun x y => rfl)
  have hrep : _reproject idFM gridInf true idW2 idW2 [1, 1]
      = .ok (gridInf, o, footprintOf o) := by
    unfold _reproject
    rw [if_neg (by rw [axisTypesDiffer_self]; simp), if_neg (by simp), ho]
    rfl
  rw [hrep]
  have h1 : o.val [0, 0] = FP.inf := hov 0 0 (by decide) (by decide)
  simp [Except.toOption, footprintOf, h1, FP.isfinite, FP.isnan]

/-- C3 counterexample: a floating-point 1×1×1 input holding NaN is mutated
in place by the whole-volume path — after the call the caller-visible
input element is `0`, not NaN. -/
theorem C3_counterexample :
    gridNan3.val [0, 0, 0] = FP.nan ∧
    (_reproject idFM gridNan3 true idW3 idW3 [2, 1, 1]).toOption.map
      (fun r => r.1.val [0, 0, 0]) = some (FP.fin 0) := by decide

/-- C4 counterexample: a rank-5 request whose leading extent matches the
input's is processed slice-wise and returns successfully instead of
raising the unsupported-dimensionality error. -/
theorem C4_counterexample :
    (_reproject idFM grid5 true idW5 idW5 [1, 1, 1, 1, 1]).toOption.isSome = true := by
  decide

/-- C7 counterexample: with celestial indices `lng = 1, lat = 2` the
iteration succeeds although the products of the non-celestial axis
extents of the two arrays differ, refuting the claimed equivalence. -/
theorem C7_counterexample :
    (iterate_over_celestial_slices arr257 arr259 (wcsOfAxes 3 1 2)).toOption.isSome = true ∧
    nonCelestialProduct [2, 5, 7] 1 2 ≠ nonCelestialProduct [2, 5, 9] 1 2 := by decide

/-- C9 counterexample: for a rank-3 array with `lng = 1, lat = 2` the
view does not place the longitude axis last and the latitude axis
second-to-last. -/
theorem C9_counterexample :
    ¬((celestialAxes 3 1 2).getD (3 - 1) 0 = 3 - 1 - 1 ∧
      (celestialAxes 3 1 2).getD (3 - 2) 0 = 3 - 1 - 2) := by decide

theorem C2_witness :
    grid55.shape = [5, 5] ∧ (1 ≤ 5 ∧ 2 < 5) ∧
    (map_coordinates grid55 FP.nan [-(1/2 : ℚ), ((2 : Nat) : ℚ)] = grid55.val [0, 2] ∧
     map_coordinates grid55 FP.nan [-(3/5 : ℚ), ((2 : Nat) : ℚ)] = FP.nan) :=
  ⟨rfl, ⟨by decide, by decide⟩,
    C2_edge_replication grid55 5 5 2 FP.nan rfl (by decide) (by decide)⟩

theorem C3_witness :
    (¬(3 ≤ ([2, 2] : List Nat).length ∧ ([2, 2] : List Nat).headD 0 ≠ grid22.shape.headD 0) →
      ∀ r, _reproject idFM grid22 true idW2 idW2 [2, 2] = .ok r → r.1 = grid22)
    ∧ ((3 ≤ ([2, 2] : List Nat).length ∧ ([2, 2] : List Nat).headD 0 ≠ grid22.shape.headD 0) →
      ∀ r, _reproject idFM grid22 true idW2 idW2 [2, 2] = .ok r →
        r.1 = if (true : Bool) then zeroNonfinite grid22 else grid22) :=
  C3_input_mutation idFM grid22 true idW2 idW2 [2, 2] (by decide)

theorem C4_witness :
    _reproject idFM grid5 true idW5 idW5 [2, 1, 1, 1] = .error ">3 dimensional cube" :=
  C4_dimensionality idFM grid5 true idW5 idW5 [2, 1, 1, 1] (by decide) (by decide) (by decide)

theorem C5_witness :
    _reproject idFM grid22 true idW2a idW2b [2, 2]
        = .error "The input and output WCS are not equivalent"
      ↔ idW2a.naxis = idW2b.naxis ∧
        ∃ i < idW2a.naxis, idW2a.axis_types.getD i 0 ≠ idW2b.axis_types.getD i 0 :=
  C5_wcs_equivalence idFM grid22 true idW2a idW2b [2, 2] (by decide) (by decide)

theorem C6_witness :
    (3 ≤ ([2, 2] : List Nat).length ∧ ([2, 2] : List Nat).headD 0 ≠ grid22.shape.headD 0 →
      _reproject idFM grid22 true idW2 idW2 [2, 2]
        = (volumeNew idFM grid22 true idW2 idW2 [2, 2]).map
            (fun p => (p.1, p.2, footprintOf p.2)))
    ∧ (¬(3 ≤ ([2, 2] : List Nat).length ∧ ([2, 2] : List Nat).headD 0 ≠ grid22.shape.headD 0) →
      _reproject idFM grid22 true idW2 idW2 [2, 2]
        = ((slicePathNew idFM grid22 idW2 idW2 [2, 2]).map fun an => (grid22, an)).map
            (fun p => (p.1, p.2, footprintOf p.2))) :=
  C6_path_selection idFM grid22 true idW2 idW2 [2, 2] (by decide)

theorem C7_witness :
    (iterate_over_celestial_slices arr122 arr222 (wcsOfAxes 3 0 1)
        = .error "Number of non-celestial elements should match"
      ↔ nonCelestialProduct arr122.shape (wcsOfAxes 3 0 1).lng (wcsOfAxes 3 0 1).lat
          ≠ nonCelestialProduct arr222.shape (wcsOfAxes 3 0 1).lng (wcsOfAxes 3 0 1).lat)
    ∧ ∀ it, iterate_over_celestial_slices arr122 arr222 (wcsOfAxes 3 0 1) = .ok it →
        it.n_remaining
          = nonCelestialProduct arr122.shape (wcsOfAxes 3 0 1).lng (wcsOfAxes 3 0 1).lat :=
  C7_shape_mismatch arr122 arr222 (wcsOfAxes 3 0 1) (by decide) (by decide) (by decide)
    (by decide) (by decide) (by decide) (by decide) (by decide) (by decide) (by decide)

theorem C8_witness :
    ∃ out foot, _reproject idFM grid22 true idW2 idW2 [2, 2] = .ok (grid22, out, foot) ∧
      out.shape = [2, 2] ∧
      ∀ i j, i < 2 → j < 2 →
        out.val [i, j] = grid22.val [i, j] ∧ foot.val [i, j] = FP.fin 1 :=
  C8_identity idFM idW2 grid22 true 2 2 rfl (by decide) (by decide) rfl rfl
    (fun x y => rfl) (fun i j _ _ => rfl)

theorem C9_witness :
    ((celestialAxes 3 0 1).getD (3 - 1) 0 = 3 - 1 - 0 ∧
     (celestialAxes 3 0 1).getD (3 - 2) 0 = 3 - 1 - 1)
    ↔ ¬(0 = 1 ∧ 2 ≤ 1) :=
  C9_axis_placement 3 0 1 (by decide) (by decide) (by decide) (by decide)

theorem C10_witness :
    (pad_edge_1_fallback grid22).shape = (pad_edge_np grid22).shape ∧
    ∀ i j, i < 2 + 2 → j < 2 + 2 →
      (pad_edge_1_fallback grid22).val [i, j] = (pad_edge_np grid22).val [i, j] :=
  C10_pad_fallback_eq grid22 2 2 rfl (by decide) (by decide)
